import Mathlib

/-!
Shallow embedding of the gateway-proxy connection core (src/server.rs, src/model.rs):
the per-connection read-loop state machine of `handle_client`, the relay and
bootstrap logic of `forward_shard`, and the identify payload model of `model.rs`.
Frame texts are embedded as lists of characters; the external opcode extractor is
abstracted by pre-classified frames; the shard cache functions absent from src/
are modelled from the spec where noted.
-/

namespace GatewayProxy

/-- server.rs:34, the fixed hello frame announcing the heartbeat interval. -/
def HELLO : String :=
  "\x7b\"t\":null,\"s\":null,\"op\":10,\"d\":\x7b\"heartbeat_interval\":41250\x7d\x7d"

/-- server.rs:35, the fixed heartbeat acknowledgement frame. -/
def HEARTBEAT_ACK : String :=
  "\x7b\"t\":null,\"s\":null,\"op\":11,\"d\":null\x7d"

/-- server.rs:36, the fixed invalid-session reply used for resume attempts. -/
def INVALID_SESSION : String :=
  "\x7b\"t\":null,\"s\":null,\"op\":9,\"d\":false\x7d"

/-- A synthesized bootstrap frame produced by `forward_shard` (server.rs:62-78).
Serialization by `simd_json::to_string` is external, so the frames are kept
structured: the fabricated READY and the per-entity availability frames, each
carrying the connection-local sequence number assigned to it. -/
inductive SynthFrame
  | ready (seq : Nat)
  | guild (gid : String) (available : Bool) (seq : Nat)
  deriving DecidableEq, Repr

/-- One message enqueued to a connection's outbound queue (`stream_writer`):
either a fixed text frame from the read loop or a synthesized bootstrap frame
from the forwarder. -/
inductive ClientMsg
  | text (s : String)
  | synth (f : SynthFrame)
  deriving DecidableEq, Repr

/-- The sequence number a synthesized frame carries. -/
def SynthFrame.seq : SynthFrame → Nat
  | .ready s => s
  | .guild _ _ s => s

/-- Projection selecting the synthesized frames of an outbound stream. -/
def synthOf : ClientMsg → Option SynthFrame
  | .text _ => none
  | .synth f => some f

/-- One record of the shard broadcast (server.rs:82-84): the serialized frame
text plus the optional sequence-field marker, a pair of the event name
(ignored at server.rs:87) and the byte range of the embedded sequence number. -/
structure EventRecord where
  payload : List Char
  sequence : Option (String × Nat × Nat)
  deriving DecidableEq, Repr

/-- Rust `String::replace_range(start..stop, r)` on the frame text
(server.rs:89): the bytes of the span are replaced, everything outside it is
kept. -/
def replaceRange (s : List Char) (start stop : Nat) (r : List Char) : List Char :=
  s.take start ++ r ++ s.drop stop

/-- Decimal digit character. -/
def digitChar (n : Nat) : Char := Char.ofNat (48 + n % 10)

/-- Fuelled accumulation of decimal digits, most significant first. -/
def decCharsAux : Nat → Nat → List Char
  | 0, _ => []
  | fuel + 1, n => if n = 0 then [] else decCharsAux fuel (n / 10) ++ [digitChar n]

/-- Decimal representation of a counter value, `usize::to_string` at
server.rs:89. -/
def decChars (n : Nat) : List Char :=
  if n = 0 then ['0'] else decCharsAux (n + 1) n

/-- One iteration of the relay loop's broadcast branch (server.rs:82-92): if the
event carries a sequence span the counter is incremented and written over that
exact range, otherwise the payload passes unchanged. Returns the transmitted
text paired with the counter value written into it (if any), and the new
counter. -/
def relayEvent (seq : Nat) (e : EventRecord) : (List Char × Option Nat) × Nat :=
  match e.sequence with
  | none => ((e.payload, none), seq)
  | some (_, a, b) =>
      ((replaceRange e.payload a b (decChars (seq + 1)), some (seq + 1)), seq + 1)

/-- The relay loop over a list of delivered broadcast events, threading the
connection-local sequence counter (server.rs:80-99). -/
def relayAll (seq : Nat) : List EventRecord → List (List Char × Option Nat) × Nat
  | [] => ([], seq)
  | e :: es =>
      let r := relayEvent seq e
      let rest := relayAll r.2 es
      (r.1 :: rest.1, rest.2)

/-- The broadcast fan-out for one event record: every subscribed connection
receives its own copy of the record (`event_receiver.recv()` clones) and
rewrites only that copy with its own counter (server.rs:82-92). -/
def fanOut (counters : List Nat) (e : EventRecord) :
    List ((List Char × Option Nat) × Nat) :=
  counters.map (fun s => relayEvent s e)

/-- Modelled from the spec: `get_ready_payload` of the shard cache (the cache
code is not under src/) — it serializes the cached bootstrap payload and
assigns sequence 0 to it, leaving the counter at the value just used. -/
def getReadyPayload (seq : Nat) : SynthFrame × Nat := (.ready seq, seq)

/-- Modelled from the spec: `get_guild_payloads` of the shard cache (the cache
code is not under src/) — one synthetic availability frame per entity of the
world-state snapshot, each assigned the next sequence number in order. -/
def getGuildPayloads (seq : Nat) : List (String × Bool) → List SynthFrame × Nat
  | [] => ([], seq)
  | (g, a) :: rest =>
      let frames := getGuildPayloads (seq + 1) rest
      (.guild g a (seq + 1) :: frames.1, frames.2)

/-- The bootstrap phase of `forward_shard` (server.rs:50-78): counter starts at
0, the fabricated READY is enqueued first, then the per-entity availability
frames; the second component is the counter value after the bootstrap. -/
def bootstrapMsgs (entities : List (String × Bool)) : List ClientMsg × Nat :=
  let r := getReadyPayload 0
  let gs := getGuildPayloads r.2 entities
  (.synth r.1 :: gs.1.map .synth, gs.2)

/-- Classification of one received client frame, abstracting the external
extractor `GatewayEventDeserializer::from_json` and the identify payload parse
(server.rs:153-166): extraction failure, the three special opcodes (with the
identify parse outcome inlined), or any other opcode with its raw text. -/
inductive Frame
  | malformed
  | heartbeat
  | identifyBad
  | identify (shardId shardCount : Nat) (compress : Option Bool)
  | resume
  | other (payload : String)
  deriving DecidableEq, Repr

/-- Whether a frame is a successfully parsed identify. -/
def isIdentifyFrame : Frame → Bool
  | .identify _ _ _ => true
  | _ => false

/-- Observable per-connection state of `handle_client`: the compression flag
(`use_zlib`), the outbound queue contents (`stream_writer`), the shard ids sent
into the one-shot slot (`shard_id_tx`), and the queued upstream commands
(`shard_send_tx`). -/
structure HState where
  useZlib : Bool
  out : List ClientMsg
  shardIds : List Nat
  commands : List String
  deriving DecidableEq, Repr

/-- Connection state right before the read loop: hello already enqueued
(server.rs:147), compression off, nothing selected or queued. -/
def initConn : HState :=
  { useZlib := false, out := [ClientMsg.text HELLO], shardIds := [], commands := [] }

/-- One iteration of the read loop's dispatch (server.rs:158-205); `none` means
the loop breaks (server.rs:178, 183) and the connection is torn down. -/
def handleFrame (shardCountCfg : Nat) (s : HState) : Frame → Option HState
  | .malformed => some s
  | .heartbeat => some { s with out := s.out ++ [ClientMsg.text HEARTBEAT_ACK] }
  | .identifyBad => some s
  | .identify i c comp =>
      if c ≠ shardCountCfg then none
      else if c ≤ i then none
      else
        some { s with
          useZlib := comp.getD s.useZlib
          shardIds := s.shardIds ++ [i] }
  | .resume => some { s with out := s.out ++ [ClientMsg.text INVALID_SESSION] }
  | .other p => some { s with commands := s.commands ++ [p] }

/-- The read loop (server.rs:149-206) over a list of received frames; the
boolean is true when the loop broke out early (connection terminated by a
protocol violation rather than by stream end). -/
def runFrames (cfg : Nat) (s : HState) : List Frame → HState × Bool
  | [] => (s, false)
  | f :: fs =>
      match handleFrame cfg s f with
      | none => (s, true)
      | some t => runFrames cfg t fs

/-- The shard id the forwarder consumes: `shard_id_rx.recv()` (server.rs:45)
returns the first value ever sent into the one-shot slot, or blocks forever
(until abort) when none was sent. -/
def selectedShard (s : HState) : Option Nat := s.shardIds.head?

/-- The bootstrap frames the forwarder enqueues for the client: none at all
when no shard id was ever delivered (the forwarder stays blocked at
server.rs:45 and is aborted), otherwise the bootstrap of the selected shard. -/
def forwarderBootstrap (sel : Option Nat) (entities : List (String × Bool)) :
    List ClientMsg :=
  match sel with
  | none => []
  | some _ => (bootstrapMsgs entities).1

/-- The commands the forwarder delivers to the shard's sink (server.rs:94-97):
once running its relay loop it forwards every queued command verbatim in
order; when the connection never identified it is still blocked at
server.rs:45 when aborted and delivers nothing. -/
def upstreamDelivered (sel : Option Nat) (cmds : List String) : List String :=
  match sel with
  | none => []
  | some _ => cmds

/-- An interleaving of two outbound streams into the single connection queue:
the order within each producer is preserved. -/
inductive Interleave : List ClientMsg → List ClientMsg → List ClientMsg → Prop
  | nil : Interleave [] [] []
  | left {x : ClientMsg} {xs ys zs : List ClientMsg} :
      Interleave xs ys zs → Interleave (x :: xs) ys (x :: zs)
  | right {y : ClientMsg} {xs ys zs : List ClientMsg} :
      Interleave xs ys zs → Interleave xs (y :: ys) (y :: zs)

/-- model.rs:9-12: the identify payload structure as declared in src/ — its
only field is `shard: [u64; 2]`. -/
structure IdentifyInfo where
  shard : Nat × Nat
  deriving DecidableEq, Repr

/-- Abstract view of the JSON object under the identify payload's `d` key: the
fields a client may send that the proxy is concerned with. -/
structure IdentifyDJson where
  shard : Option (Nat × Nat)
  compress : Option Bool
  deriving DecidableEq, Repr

/-- serde deserialization into `IdentifyInfo` as declared at model.rs:9-12: the
`shard` field is required; any other field of the object, including a
`compress` flag, is ignored because the struct declares no such field. -/
def deserializeIdentifyInfo (d : IdentifyDJson) : Option IdentifyInfo :=
  match d.shard with
  | none => none
  | some p => some { shard := p }

/-! Helper lemmas. -/

lemma handleFrame_identify_some {cfg i c : Nat} {comp : Option Bool} {s t : HState}
    (h : handleFrame cfg s (Frame.identify i c comp) = some t) :
    t = { s with useZlib := comp.getD s.useZlib, shardIds := s.shardIds ++ [i] } := by
  simp only [handleFrame] at h
  split at h
  · exact Option.noConfusion h
  · split at h
    · exact Option.noConfusion h
    · exact (Option.some_inj.mp h).symm

lemma relayAll_seqs (es : List EventRecord) :
    ∀ bc : Nat, (∀ e ∈ es, e.sequence.isSome = true) →
      (relayAll bc es).1.map Prod.snd = (List.range' (bc + 1) es.length).map some ∧
      (relayAll bc es).2 = bc + es.length := by
  induction es with
  | nil => intro bc _; simp [relayAll]
  | cons e es ih =>
      intro bc h
      have he : e.sequence.isSome = true := h e (by simp)
      obtain ⟨x, hx⟩ := Option.isSome_iff_exists.mp he
      obtain ⟨nm, a, b⟩ := x
      have hrest := ih (bc + 1) (fun f hf => h f (by simp [hf]))
      refine ⟨?_, ?_⟩
      · simp only [relayAll, relayEvent, hx, List.map_cons, hrest.1, List.length_cons,
          List.range'_succ, List.map]
      · simp only [relayAll, relayEvent, hx, hrest.2, List.length_cons]
        omega

lemma getGuildPayloads_seqs (es : List (String × Bool)) :
    ∀ s : Nat,
      ((getGuildPayloads s es).1).map SynthFrame.seq = List.range' (s + 1) es.length := by
  induction es with
  | nil => intro s; simp [getGuildPayloads]
  | cons e es ih =>
      intro s
      obtain ⟨g, a⟩ := e
      simp [getGuildPayloads, SynthFrame.seq, ih (s + 1), List.range'_succ]

lemma getGuildPayloads_counter (es : List (String × Bool)) :
    ∀ s : Nat, (getGuildPayloads s es).2 = s + es.length := by
  induction es with
  | nil => intro s; simp [getGuildPayloads]
  | cons e es ih =>
      intro s
      obtain ⟨g, a⟩ := e
      simp [getGuildPayloads, ih (s + 1)]
      omega

lemma filterMap_synthOf_map (l : List SynthFrame) :
    (l.map ClientMsg.synth).filterMap synthOf = l := by
  induction l with
  | nil => rfl
  | cons f l ih => simp [synthOf, List.filterMap_cons, ih]

lemma filterMap_synthOf_comp (l : List SynthFrame) :
    List.filterMap (synthOf ∘ ClientMsg.synth) l = l := by
  induction l with
  | nil => rfl
  | cons f l ih => simp [synthOf, List.filterMap_cons, ih]

lemma bootstrapMsgs_filterMap (es : List (String × Bool)) :
    (bootstrapMsgs es).1.filterMap synthOf =
      SynthFrame.ready 0 :: (getGuildPayloads 0 es).1 := by
  simp [bootstrapMsgs, getReadyPayload, synthOf, List.filterMap_cons,
    filterMap_synthOf_map, filterMap_synthOf_comp]

lemma bootstrapMsgs_all_synth (es : List (String × Bool)) :
    ∀ m ∈ (bootstrapMsgs es).1, ∃ f, m = ClientMsg.synth f := by
  intro m hm
  simp only [bootstrapMsgs, getReadyPayload, List.mem_cons, List.mem_map] at hm
  rcases hm with rfl | ⟨f, _, rfl⟩
  · exact ⟨_, rfl⟩
  · exact ⟨f, rfl⟩

lemma runFrames_append (cfg : Nat) (xs : List Frame) :
    ∀ (s : HState) (ys : List Frame),
      runFrames cfg s (xs ++ ys) =
        if (runFrames cfg s xs).2 then runFrames cfg s xs
        else runFrames cfg (runFrames cfg s xs).1 ys := by
  induction xs with
  | nil => intro s ys; simp [runFrames]
  | cons f xs ih =>
      intro s ys
      cases hf : handleFrame cfg s f with
      | none => simp [runFrames, hf]
      | some t => simp [runFrames, hf, ih t ys]

lemma runFrames_no_identify (cfg : Nat) (fs : List Frame) :
    ∀ s : HState, (∀ f ∈ fs, isIdentifyFrame f = false) →
      (runFrames cfg s fs).2 = false ∧
      (runFrames cfg s fs).1.shardIds = s.shardIds := by
  induction fs with
  | nil => intro s _; simp [runFrames]
  | cons f fs ih =>
      intro s h
      have hf : isIdentifyFrame f = false := h f (by simp)
      have hrest : ∀ g ∈ fs, isIdentifyFrame g = false := fun g hg => h g (by simp [hg])
      cases f with
      | malformed => simpa [runFrames, handleFrame] using ih s hrest
      | heartbeat => simpa [runFrames, handleFrame] using ih _ hrest
      | identifyBad => simpa [runFrames, handleFrame] using ih s hrest
      | identify i c comp => simp [isIdentifyFrame] at hf
      | resume => simpa [runFrames, handleFrame] using ih _ hrest
      | other p => simpa [runFrames, handleFrame] using ih _ hrest

lemma runFrames_out_extends (cfg : Nat) (fs : List Frame) :
    ∀ s : HState, ∃ a : List ClientMsg,
      (runFrames cfg s fs).1.out = s.out ++ a ∧
      ∀ m ∈ a, m = ClientMsg.text HEARTBEAT_ACK ∨ m = ClientMsg.text INVALID_SESSION := by
  induction fs with
  | nil => intro s; exact ⟨[], by simp [runFrames], by simp⟩
  | cons f fs ih =>
      intro s
      cases f with
      | malformed => simpa [runFrames, handleFrame] using ih s
      | identifyBad => simpa [runFrames, handleFrame] using ih s
      | heartbeat =>
          obtain ⟨a, ha, hmem⟩ := ih { s with out := s.out ++ [ClientMsg.text HEARTBEAT_ACK] }
          refine ⟨ClientMsg.text HEARTBEAT_ACK :: a, ?_, ?_⟩
          · simpa [runFrames, handleFrame, List.append_assoc] using ha
          · intro m hm
            rcases List.mem_cons.mp hm with rfl | hm
            · exact Or.inl rfl
            · exact hmem m hm
      | resume =>
          obtain ⟨a, ha, hmem⟩ := ih { s with out := s.out ++ [ClientMsg.text INVALID_SESSION] }
          refine ⟨ClientMsg.text INVALID_SESSION :: a, ?_, ?_⟩
          · simpa [runFrames, handleFrame, List.append_assoc] using ha
          · intro m hm
            rcases List.mem_cons.mp hm with rfl | hm
            · exact Or.inr rfl
            · exact hmem m hm
      | other p => simpa [runFrames, handleFrame] using ih _
      | identify i c comp =>
          cases hf : handleFrame cfg s (Frame.identify i c comp) with
          | none => exact ⟨[], by simp [runFrames, hf], by simp⟩
          | some t =>
              have ht := handleFrame_identify_some hf
              obtain ⟨a, ha, hmem⟩ := ih t
              refine ⟨a, ?_, hmem⟩
              have : t.out = s.out := by rw [ht]
              simp only [runFrames, hf]
              rw [ha, this]

lemma runFrames_shardIds_extends (cfg : Nat) (fs : List Frame) :
    ∀ s : HState, ∃ a : List Nat,
      (runFrames cfg s fs).1.shardIds = s.shardIds ++ a := by
  induction fs with
  | nil => intro s; exact ⟨[], by simp [runFrames]⟩
  | cons f fs ih =>
      intro s
      cases f with
      | malformed => simpa [runFrames, handleFrame] using ih s
      | identifyBad => simpa [runFrames, handleFrame] using ih s
      | heartbeat => simpa [runFrames, handleFrame] using ih _
      | resume => simpa [runFrames, handleFrame] using ih _
      | other p => simpa [runFrames, handleFrame] using ih _
      | identify i c comp =>
          cases hf : handleFrame cfg s (Frame.identify i c comp) with
          | none => exact ⟨[], by simp [runFrames, hf]⟩
          | some t =>
              have ht := handleFrame_identify_some hf
              obtain ⟨a, ha⟩ := ih t
              refine ⟨i :: a, ?_⟩
              simp only [runFrames, hf]
              rw [ha, ht]
              simp

lemma interleave_mem {l1 l2 ms : List ClientMsg} (h : Interleave l1 l2 ms) :
    ∀ m ∈ ms, m ∈ l1 ∨ m ∈ l2 := by
  induction h with
  | nil => intro m hm; cases hm
  | left h ih =>
      intro m hm
      rcases List.mem_cons.mp hm with rfl | hm
      · exact Or.inl (by simp)
      · rcases ih m hm with h1 | h2
        · exact Or.inl (by simp [h1])
        · exact Or.inr h2
  | right h ih =>
      intro m hm
      rcases List.mem_cons.mp hm with rfl | hm
      · exact Or.inr (by simp)
      · rcases ih m hm with h1 | h2
        · exact Or.inl h1
        · exact Or.inr (by simp [h2])

lemma interleave_filterMap {l1 l2 ms : List ClientMsg} (h : Interleave l1 l2 ms)
    (h1 : ∀ m ∈ l1, synthOf m = none) :
    ms.filterMap synthOf = l2.filterMap synthOf := by
  induction h with
  | nil => rfl
  | left h ih =>
      simp only [List.filterMap_cons]
      rw [h1 _ (by simp)]
      exact ih (fun m hm => h1 m (by simp [hm]))
  | right h ih =>
      rename_i y xs ys zs
      have := ih h1
      cases hy : synthOf y <;> simp [List.filterMap_cons, hy, this]

lemma runFrames_others (cfg : Nat) (ps : List String) :
    ∀ s : HState,
      runFrames cfg s (ps.map Frame.other) =
        ({ s with commands := s.commands ++ ps }, false) := by
  induction ps with
  | nil => intro s; simp [runFrames]
  | cons p ps ih =>
      intro s
      simp [runFrames, handleFrame, ih]

/-! Claim theorems. -/

/-- Claim C1: after a bootstrap that left the connection counter at
`bootstrap_count`, any N live events carrying a sequence span are relabelled
with exactly `bootstrap_count+1, ..., bootstrap_count+N` in order, strictly
increasing with no gaps, independent of the sequence numbers embedded by the
upstream source (the event payloads and spans are universally quantified and do
not influence the assigned numbers). -/
theorem c1_live_event_sequence_relabelling (bc : Nat) (es : List EventRecord)
    (h : ∀ e ∈ es, e.sequence.isSome = true) :
    (relayAll bc es).1.map Prod.snd = (List.range' (bc + 1) es.length).map some ∧
    (relayAll bc es).2 = bc + es.length :=
  relayAll_seqs es bc h

theorem c1_witness :
    (relayAll 7 [⟨['x'], some ("A", 0, 1)⟩, ⟨['y', '9'], some ("B", 1, 2)⟩]).1.map Prod.snd =
        (List.range' 8 2).map some ∧
      (relayAll 7 [⟨['x'], some ("A", 0, 1)⟩, ⟨['y', '9'], some ("B", 1, 2)⟩]).2 = 7 + 2 :=
  c1_live_event_sequence_relabelling 7
    [⟨['x'], some ("A", 0, 1)⟩, ⟨['y', '9'], some ("B", 1, 2)⟩] (by decide)

/-- Claim C5: the claim says an identify payload carrying a compression-enable
flag sets the connection's compression flag; but the `IdentifyInfo` struct
declared at model.rs:9-12 has no `compress` field, so deserializing the
failing input yields a value carrying no compression information — the parse
result is identical with and without the flag — and server.rs:188 reads a
field that does not exist on the declared struct. -/
theorem c5_identify_compress_flag_lost :
    deserializeIdentifyInfo { shard := some (0, 1), compress := some true } =
        some { shard := (0, 1) } ∧
      deserializeIdentifyInfo { shard := some (0, 1), compress := some true } =
        deserializeIdentifyInfo { shard := some (0, 1), compress := none } :=
  ⟨rfl, rfl⟩

/-- Claim C6: two connections subscribed to the same shard broadcast each get
their own dense numbering starting from their own bootstrap counter, and each
rewrites only its own copy of a shared event record: the second subscriber's
delivered frame is computed from the original record and is unchanged when the
first subscriber's counter is replaced by any other value. -/
theorem c6_per_connection_isolation (sA sA2 sB : Nat) (es : List EventRecord)
    (e : EventRecord) (h : ∀ x ∈ es, x.sequence.isSome = true) :
    (relayAll sA es).1.map Prod.snd = (List.range' (sA + 1) es.length).map some ∧
    (relayAll sB es).1.map Prod.snd = (List.range' (sB + 1) es.length).map some ∧
    (fanOut [sA, sB] e)[1]? = some (relayEvent sB e) ∧
    (fanOut [sA, sB] e)[1]? = (fanOut [sA2, sB] e)[1]? :=
  ⟨(relayAll_seqs es sA h).1, (relayAll_seqs es sB h).1, rfl, rfl⟩

theorem c6_witness :
    (relayAll 3 [⟨['s', '7'], some ("E", 1, 2)⟩]).1.map Prod.snd =
        (List.range' 4 1).map some ∧
      (relayAll 5 [⟨['s', '7'], some ("E", 1, 2)⟩]).1.map Prod.snd =
        (List.range' 6 1).map some ∧
      (fanOut [3, 5] ⟨['s', '7'], some ("E", 1, 2)⟩)[1]? =
        some (relayEvent 5 ⟨['s', '7'], some ("E", 1, 2)⟩) ∧
      (fanOut [3, 5] ⟨['s', '7'], some ("E", 1, 2)⟩)[1]? =
        (fanOut [99, 5] ⟨['s', '7'], some ("E", 1, 2)⟩)[1]? :=
  c6_per_connection_isolation 3 99 5 [⟨['s', '7'], some ("E", 1, 2)⟩]
    ⟨['s', '7'], some ("E", 1, 2)⟩ (by decide)

/-- Claim C7: a relayed event with a sequence span has exactly the bytes of
that span replaced by the decimal representation of the incremented counter —
the text before the span and after it is transmitted unchanged — and an event
without a span is forwarded byte-for-byte unmodified with the counter
untouched. -/
theorem c7_in_place_span_rewrite (seq : Nat) (e : EventRecord) :
    (e.sequence = none → relayEvent seq e = ((e.payload, none), seq)) ∧
    (∀ nm a b, e.sequence = some (nm, a, b) → a ≤ b → b ≤ e.payload.length →
      (relayEvent seq e).1.1.take a = e.payload.take a ∧
      (relayEvent seq e).1.1.drop (a + (decChars (seq + 1)).length) = e.payload.drop b ∧
      ((relayEvent seq e).1.1.drop a).take (decChars (seq + 1)).length = decChars (seq + 1) ∧
      (relayEvent seq e).2 = seq + 1) := by
  constructor
  · intro h
    simp [relayEvent, h]
  · intro nm a b hseq hab hbl
    have hrel : relayEvent seq e =
        ((replaceRange e.payload a b (decChars (seq + 1)), some (seq + 1)), seq + 1) := by
      simp [relayEvent, hseq]
    have hlen : (e.payload.take a).length = a := by
      rw [List.length_take]
      omega
    refine ⟨?_, ?_, ?_, by rw [hrel]⟩
    · rw [hrel]
      show (e.payload.take a ++ decChars (seq + 1) ++ e.payload.drop b).take a = _
      rw [List.append_assoc]
      exact List.take_left' hlen
    · rw [hrel]
      show (e.payload.take a ++ decChars (seq + 1) ++ e.payload.drop b).drop
          (a + (decChars (seq + 1)).length) = _
      have hlen2 : (e.payload.take a ++ decChars (seq + 1)).length =
          a + (decChars (seq + 1)).length := by
        simp [hlen]
      exact List.drop_left' hlen2
    · rw [hrel]
      show ((e.payload.take a ++ decChars (seq + 1) ++ e.payload.drop b).drop a).take
          (decChars (seq + 1)).length = _
      rw [List.append_assoc, List.drop_left' hlen]
      exact List.take_left' rfl

theorem c7_witness :
    (relayEvent 8 ⟨['a', 'b', '1', '2', 'c'], some ("X", 2, 4)⟩).1.1.take 2 =
        (['a', 'b', '1', '2', 'c'] : List Char).take 2 ∧
      (relayEvent 8 ⟨['a', 'b', '1', '2', 'c'], some ("X", 2, 4)⟩).1.1.drop
          (2 + (decChars 9).length) =
        (['a', 'b', '1', '2', 'c'] : List Char).drop 4 ∧
      ((relayEvent 8 ⟨['a', 'b', '1', '2', 'c'], some ("X", 2, 4)⟩).1.1.drop 2).take
          (decChars 9).length = decChars 9 ∧
      (relayEvent 8 ⟨['a', 'b', '1', '2', 'c'], some ("X", 2, 4)⟩).2 = 8 + 1 :=
  (c7_in_place_span_rewrite 8 ⟨['a', 'b', '1', '2', 'c'], some ("X", 2, 4)⟩).2
    "X" 2 4 rfl (by decide) (by decide)

/-- Claim C8: a resume frame (opcode 6) makes the handler enqueue exactly one
invalid-session frame — whose text is byte-for-byte the fixed literal — and
nothing else: the compression flag, the shard-selection slot and the command
queue are left untouched and the loop continues. -/
theorem c8_resume_always_invalid_session (cfg : Nat) (s : HState) :
    handleFrame cfg s Frame.resume =
        some { s with out := s.out ++ [ClientMsg.text INVALID_SESSION] } ∧
      INVALID_SESSION.toList.map Char.toNat =
        [123, 34, 116, 34, 58, 110, 117, 108, 108, 44, 34, 115, 34, 58, 110, 117, 108,
          108, 44, 34, 111, 112, 34, 58, 57, 44, 34, 100, 34, 58, 102, 97, 108, 115,
          101, 125] :=
  ⟨rfl, by decide⟩

/-- Claim C9: a frame the extractor cannot parse, and an identify frame whose
payload fails to deserialize, are skipped without any reply or state change,
and the read loop goes on with the remaining frames. -/
theorem c9_malformed_frames_skipped (cfg : Nat) (s : HState) (fs : List Frame) :
    handleFrame cfg s Frame.malformed = some s ∧
    handleFrame cfg s Frame.identifyBad = some s ∧
    runFrames cfg s (Frame.malformed :: fs) = runFrames cfg s fs ∧
    runFrames cfg s (Frame.identifyBad :: fs) = runFrames cfg s fs :=
  ⟨rfl, rfl, rfl, rfl⟩

/-- Claim C10: a rejected identify (count mismatch or out-of-range index) makes
the handler break out of the loop before the compression-flag store and the
shard-id send, so the whole connection state — compression flag, shard slot,
queues — is exactly what it was before the frame arrived. -/
theorem c10_rejected_identify_no_partial_effect (cfg : Nat) (s : HState) (i c : Nat)
    (comp : Option Bool) (fs : List Frame) (hbad : c ≠ cfg ∨ c ≤ i) :
    handleFrame cfg s (Frame.identify i c comp) = none ∧
    runFrames cfg s (Frame.identify i c comp :: fs) = (s, true) := by
  have h1 : handleFrame cfg s (Frame.identify i c comp) = none := by
    rcases hbad with h | h
    · simp [handleFrame, h]
    · by_cases hc : c = cfg
      · subst hc
        simp [handleFrame, h]
      · simp [handleFrame, hc]
  exact ⟨h1, by simp [runFrames, h1]⟩

theorem c10_witness :
    handleFrame 1 initConn (Frame.identify 5 1 (some true)) = none ∧
    runFrames 1 initConn [Frame.identify 5 1 (some true)] = (initConn, true) :=
  c10_rejected_identify_no_partial_effect 1 initConn 5 1 (some true) []
    (Or.inr (by decide))

/-- Claim C3: an identify whose declared shard count differs from the
configured count, or whose shard index is out of range, terminates the read
loop (after which handle_client aborts both child tasks, server.rs:208-209);
no shard id was ever sent into the one-shot slot, so the forwarder never gets
past server.rs:45 and no bootstrap frame is ever sent to that client. -/
theorem c3_invalid_identify_closes_without_bootstrap (cfg i c : Nat)
    (comp : Option Bool) (pre post : List Frame) (entities : List (String × Bool))
    (hbad : c ≠ cfg ∨ c ≤ i)
    (hpre : ∀ f ∈ pre, isIdentifyFrame f = false) :
    (runFrames cfg initConn (pre ++ Frame.identify i c comp :: post)).2 = true ∧
    (runFrames cfg initConn (pre ++ Frame.identify i c comp :: post)).1.shardIds = [] ∧
    forwarderBootstrap
        (selectedShard (runFrames cfg initConn (pre ++ Frame.identify i c comp :: post)).1)
        entities = [] := by
  have hno := runFrames_no_identify cfg pre initConn hpre
  have happ := runFrames_append cfg pre initConn (Frame.identify i c comp :: post)
  have hFrame :
      handleFrame cfg (runFrames cfg initConn pre).1 (Frame.identify i c comp) = none := by
    rcases hbad with h | h
    · simp [handleFrame, h]
    · by_cases hc : c = cfg
      · subst hc
        simp [handleFrame, h]
      · simp [handleFrame, hc]
  have hrun : runFrames cfg initConn (pre ++ Frame.identify i c comp :: post) =
      ((runFrames cfg initConn pre).1, true) := by
    rw [happ, hno.1]
    simp [runFrames, hFrame]
  have hsid : (runFrames cfg initConn pre).1.shardIds = [] := by
    simpa [initConn] using hno.2
  rw [hrun]
  exact ⟨rfl, hsid, by simp [selectedShard, forwarderBootstrap, hsid]⟩

theorem c3_witness :
    (runFrames 1 initConn [Frame.identify 0 2 none]).2 = true ∧
    (runFrames 1 initConn [Frame.identify 0 2 none]).1.shardIds = [] ∧
    forwarderBootstrap (selectedShard (runFrames 1 initConn [Frame.identify 0 2 none]).1)
        [("G1", true)] = [] :=
  c3_invalid_identify_closes_without_bootstrap 1 0 2 none [] [] [("G1", true)]
    (Or.inl (by decide)) (by simp)

/-- Claim C4 counterexample: a frame with a pass-through opcode sent before the
client identifies is queued into the unbounded `shard_send` channel
(server.rs:203) and, once the client identifies, the forwarder's relay loop
drains the queue and delivers it upstream (server.rs:94-97) — so at this
concrete input the command IS delivered, contradicting the claim that it is
never delivered even after identify. -/
theorem c4_counterexample :
    upstreamDelivered
        (selectedShard
          (runFrames 1 initConn [Frame.other "CMD", Frame.identify 0 1 none]).1)
        (runFrames 1 initConn [Frame.other "CMD", Frame.identify 0 1 none]).1.commands =
      ["CMD"] := by
  rfl

/-- Claim C4 amended: frames with non-special opcodes sent before identify are
buffered, not dropped — they are never delivered only if the connection never
identifies; once an identify selects a shard, the forwarder delivers all
buffered commands verbatim, in order, to the shard's sink. -/
theorem c4_pre_identify_commands_buffered (cfg i : Nat) (comp : Option Bool)
    (ps : List String) (hi : i < cfg) :
    upstreamDelivered
        (selectedShard (runFrames cfg initConn (ps.map Frame.other)).1)
        (runFrames cfg initConn (ps.map Frame.other)).1.commands = [] ∧
    upstreamDelivered
        (selectedShard
          (runFrames cfg initConn (ps.map Frame.other ++ [Frame.identify i cfg comp])).1)
        (runFrames cfg initConn
          (ps.map Frame.other ++ [Frame.identify i cfg comp])).1.commands = ps := by
  have hothers := runFrames_others cfg ps initConn
  constructor
  · rw [hothers]
    simp [selectedShard, upstreamDelivered, initConn]
  · have happ :=
      runFrames_append cfg (ps.map Frame.other) initConn [Frame.identify i cfg comp]
    rw [hothers] at happ
    have hF : handleFrame cfg { initConn with commands := initConn.commands ++ ps }
        (Frame.identify i cfg comp) =
        some { initConn with
          commands := initConn.commands ++ ps
          useZlib := comp.getD initConn.useZlib
          shardIds := initConn.shardIds ++ [i] } := by
      simp [handleFrame, Nat.not_le.mpr hi]
    rw [happ]
    simp only [Bool.false_eq_true, if_false, runFrames, hF]
    simp [selectedShard, upstreamDelivered, initConn]

theorem c4_witness :
    upstreamDelivered (selectedShard (runFrames 1 initConn [Frame.other "CMD"]).1)
        (runFrames 1 initConn [Frame.other "CMD"]).1.commands = [] ∧
    upstreamDelivered
        (selectedShard
          (runFrames 1 initConn [Frame.other "CMD", Frame.identify 0 1 none]).1)
        (runFrames 1 initConn [Frame.other "CMD", Frame.identify 0 1 none]).1.commands =
      ["CMD"] :=
  c4_pre_identify_commands_buffered 1 0 none ["CMD"] (by decide)

/-- Claim C2: on a connection whose first parsed identify is valid (index in
range, count equal to the configured one), the client-observed stream — hello
first, then any interleaving of the loop's replies with the forwarder's
bootstrap — contains the hello exactly once, exactly one fabricated READY
carrying sequence 0 followed by exactly one availability frame per entity of
the snapshot, their sequence numbers strictly increasing by 1 from 0 with no
gaps or repeats. The shard cache's bootstrap payload functions are modelled
from the spec (their code is not under src/). -/
theorem c2_fresh_session_bootstrap (cfg i c : Nat) (comp : Option Bool)
    (pre post : List Frame) (entities : List (String × Bool)) (ms : List ClientMsg)
    (hc : c = cfg) (hi : i < c)
    (hpre : ∀ f ∈ pre, isIdentifyFrame f = false)
    (hms : Interleave
        ((runFrames cfg initConn (pre ++ Frame.identify i c comp :: post)).1.out.drop 1)
        (forwarderBootstrap
          (selectedShard (runFrames cfg initConn (pre ++ Frame.identify i c comp :: post)).1)
          entities)
        ms) :
    selectedShard (runFrames cfg initConn (pre ++ Frame.identify i c comp :: post)).1 =
        some i ∧
    ClientMsg.text HELLO ∉ ms ∧
    (ClientMsg.text HELLO :: ms).filterMap synthOf =
        SynthFrame.ready 0 :: (getGuildPayloads 0 entities).1 ∧
    ((ClientMsg.text HELLO :: ms).filterMap synthOf).map SynthFrame.seq =
        List.range (entities.length + 1) := by
  subst hc
  have hno := runFrames_no_identify c pre initConn hpre
  have happ := runFrames_append c pre initConn (Frame.identify i c comp :: post)
  have hsidpre : (runFrames c initConn pre).1.shardIds = [] := by
    simpa [initConn] using hno.2
  have hF : handleFrame c (runFrames c initConn pre).1 (Frame.identify i c comp) =
      some { (runFrames c initConn pre).1 with
        useZlib := comp.getD (runFrames c initConn pre).1.useZlib
        shardIds := (runFrames c initConn pre).1.shardIds ++ [i] } := by
    simp [handleFrame, Nat.not_le.mpr hi]
  have hrun : runFrames c initConn (pre ++ Frame.identify i c comp :: post) =
      runFrames c
        { (runFrames c initConn pre).1 with
          useZlib := comp.getD (runFrames c initConn pre).1.useZlib
          shardIds := (runFrames c initConn pre).1.shardIds ++ [i] } post := by
    rw [happ, hno.1]
    simp [runFrames, hF]
  obtain ⟨tail, htail⟩ := runFrames_shardIds_extends c post
    { (runFrames c initConn pre).1 with
      useZlib := comp.getD (runFrames c initConn pre).1.useZlib
      shardIds := (runFrames c initConn pre).1.shardIds ++ [i] }
  have hsel : selectedShard
      (runFrames c initConn (pre ++ Frame.identify i c comp :: post)).1 = some i := by
    rw [hrun, selectedShard, htail]
    simp [hsidpre]
  obtain ⟨A, hA, hAmem⟩ :=
    runFrames_out_extends c (pre ++ Frame.identify i c comp :: post) initConn
  have hdrop : (runFrames c initConn (pre ++ Frame.identify i c comp :: post)).1.out.drop 1
      = A := by
    rw [hA]
    simp [initConn]
  rw [hsel, hdrop] at hms
  have hAnone : ∀ m ∈ A, synthOf m = none := by
    intro m hm
    rcases hAmem m hm with rfl | rfl <;> rfl
  have hfm : ms.filterMap synthOf = (bootstrapMsgs entities).1.filterMap synthOf :=
    interleave_filterMap (by simpa [forwarderBootstrap] using hms) hAnone
  have hsynths : (ClientMsg.text HELLO :: ms).filterMap synthOf =
      SynthFrame.ready 0 :: (getGuildPayloads 0 entities).1 := by
    rw [List.filterMap_cons]
    have : synthOf (ClientMsg.text HELLO) = none := rfl
    rw [this, hfm, bootstrapMsgs_filterMap]
  refine ⟨hsel, ?_, hsynths, ?_⟩
  · intro hmem
    rcases interleave_mem (by simpa [forwarderBootstrap] using hms) _ hmem with hin | hin
    · rcases hAmem _ hin with h | h
      · exact absurd (ClientMsg.text.injEq _ _ ▸ congrArg id h) (by simp [HELLO, HEARTBEAT_ACK])
      · exact absurd (ClientMsg.text.injEq _ _ ▸ congrArg id h) (by simp [HELLO, INVALID_SESSION])
    · obtain ⟨f, hf⟩ := bootstrapMsgs_all_synth entities _ hin
      exact ClientMsg.noConfusion hf
  · rw [hsynths]
    simp only [List.map_cons, SynthFrame.seq, getGuildPayloads_seqs entities 0]
    rw [List.range_eq_range', List.range'_succ]

theorem c2_witness :
    selectedShard (runFrames 1 initConn [Frame.identify 0 1 (some true)]).1 = some 0 ∧
    ClientMsg.text HELLO ∉
        [ClientMsg.synth (SynthFrame.ready 0),
          ClientMsg.synth (SynthFrame.guild "G1" true 1)] ∧
    (ClientMsg.text HELLO ::
        [ClientMsg.synth (SynthFrame.ready 0),
          ClientMsg.synth (SynthFrame.guild "G1" true 1)]).filterMap synthOf =
      SynthFrame.ready 0 :: (getGuildPayloads 0 [("G1", true)]).1 ∧
    ((ClientMsg.text HELLO ::
        [ClientMsg.synth (SynthFrame.ready 0),
          ClientMsg.synth (SynthFrame.guild "G1" true 1)]).filterMap synthOf).map
        SynthFrame.seq =
      List.range ([("G1", true)].length + 1) :=
  c2_fresh_session_bootstrap 1 0 1 (some true) [] [] [("G1", true)]
    [ClientMsg.synth (SynthFrame.ready 0), ClientMsg.synth (SynthFrame.guild "G1" true 1)]
    rfl (by decide) (by simp)
    (Interleave.right (Interleave.right Interleave.nil))

end GatewayProxy
